import Mathlib

/-!
Verification of the tapomap DEM-to-layered-vector export pipeline
(`src/app/api/export/route.ts`) against its specification.

Modelling conventions:
* JavaScript `number` values that matter only as finite quantities are
  embedded as `ℚ`; where IEEE non-finite values (`NaN`, `±Infinity`)
  are behaviourally relevant (the running min/max scan and the request
  validation guard) we use the four-case type `JSNum`, with comparison
  operators mirroring JavaScript semantics (every comparison involving
  `NaN` is false).
* The projection `lonLatToTile` is transcendental (`tan`, `log`); the
  claims under study consume only the projected fractional tile
  coordinates of the two viewport corners, so those coordinates are
  taken as inputs (`ℚ` values) and the integer tile-range arithmetic is
  embedded exactly.
* The `for (let t = start + intervalM; t <= end; t += intervalM)`
  threshold loop is embedded with an explicit fuel argument; for
  `0 < intervalM` the chosen fuel is exact (the loop body runs exactly
  while `t ≤ end`), which is the regime in which the route reaches the
  loop.
-/

namespace Tapomap

/-- JavaScript double, abstracted to the cases the route distinguishes:
a finite value (kept exact as `ℚ`), the two infinities, and `NaN`. -/
inductive JSNum where
  | fin (q : ℚ)
  | inf
  | ninf
  | nan
deriving DecidableEq

/-- JavaScript `<` on numbers: any comparison with `NaN` is false,
`-Infinity < finite < Infinity`. -/
def jsLt : JSNum → JSNum → Bool
  | .nan, _ => false
  | _, .nan => false
  | .fin a, .fin b => decide (a < b)
  | .fin _, .inf => true
  | .fin _, .ninf => false
  | .inf, _ => false
  | .ninf, .ninf => false
  | .ninf, _ => true

/-- JavaScript `<=` on numbers: any comparison with `NaN` is false. -/
def jsLe : JSNum → JSNum → Bool
  | .nan, _ => false
  | _, .nan => false
  | .fin a, .fin b => decide (a ≤ b)
  | .fin _, .inf => true
  | .fin _, .ninf => false
  | .inf, .inf => true
  | .inf, _ => false
  | .ninf, _ => true

/-- JavaScript `isFinite`. -/
def isFinite : JSNum → Bool
  | .fin _ => true
  | _ => false

/-- JavaScript `Math.round`: round half toward positive infinity. -/
def jsRound (x : ℚ) : ℤ := ⌊x + 1 / 2⌋

/-- Route lines 9–11: `clamp(n, a, b) = Math.max(a, Math.min(b, n))`,
specialised to the integer arguments it receives in `nearestSample`. -/
def clamp (n a b : ℤ) : ℤ := max a (min b n)

/-- The failure taxonomy of the route (each constructor is one of the
distinct non-success responses of `POST`).  `areaTooLarge` carries the
computed tile count, as the 413 response text does. -/
inductive ExportError where
  | invalidConfig
  | areaTooLarge (count : ℤ)
  | degenerateElevation
  | noLayers
deriving DecidableEq

/-! ### Tile addressing (route lines 88–102) -/

/-- Inclusive integer tile index range. -/
structure TileRange where
  xMin : ℤ
  xMax : ℤ
  yMin : ℤ
  yMax : ℤ
deriving DecidableEq

/-- Route lines 91–94: the corners `tl`/`br` are the projected
fractional tile coordinates of (west, north) and (east, south); the
code floors both the min and the max of each axis. -/
def addressRange (tlx tly brx bry : ℚ) : TileRange :=
  ⟨⌊min tlx brx⌋, ⌊max tlx brx⌋, ⌊min tly bry⌋, ⌊max tly bry⌋⟩

/-- Reading of the spec sentence "project both corners, take floor/ceil
to get the inclusive integer tile index range": floor of the min,
ceiling of the max.  Stated only for comparison with `addressRange`,
which is what the code computes. -/
def addressRangeFloorCeil (tlx tly brx bry : ℚ) : TileRange :=
  ⟨⌊min tlx brx⌋, ⌈max tlx brx⌉, ⌊min tly bry⌋, ⌈max tly bry⌉⟩

/-- Route line 96: `(xMax - xMin + 1) * (yMax - yMin + 1)`. -/
def tileCount (r : TileRange) : ℤ := (r.xMax - r.xMin + 1) * (r.yMax - r.yMin + 1)

/-! ### Request validation and the pre-stitch part of `POST`
(route lines 70–102) -/

/-- The request fields that the validation guard on route line 80
inspects.  `hasBounds` models the truthiness of `body.bounds`; the four
numeric fields are `Number(...)` conversions and may be non-finite. -/
structure RequestConfig where
  hasBounds : Bool
  widthIn : JSNum
  heightIn : JSNum
  intervalM : JSNum
  gridN : JSNum
deriving DecidableEq

/-- Route line 80:
`!bounds || widthIn <= 0 || heightIn <= 0 || intervalM <= 0 || grid < 64`,
with JavaScript comparison semantics. -/
def validationFails (c : RequestConfig) : Bool :=
  !c.hasBounds || jsLe c.widthIn (.fin 0) || jsLe c.heightIn (.fin 0) ||
    jsLe c.intervalM (.fin 0) || jsLt c.gridN (.fin 64)

/-- The route from request validation up to the tile-count guard, the
part that runs before any tile is fetched or stitched (lines 80–102).
On success it returns the tile range that stitching consumes. -/
def exportPrelude (c : RequestConfig) (tlx tly brx bry : ℚ) :
    Except ExportError TileRange :=
  if validationFails c then .error .invalidConfig
  else
    let r := addressRange tlx tly brx bry
    if 64 < tileCount r then .error (.areaTooLarge (tileCount r)) else .ok r

/-! ### Terrarium decoding (route lines 22–24) -/

/-- Decoding law `decodeTerrarium(r, g, b) = r * 256 + g + b / 256 - 32768`.  The
channel values are integers in `0..255`, for which every intermediate
double is exact, so the `ℚ` embedding is faithful. -/
def decodeTerrarium (r g b : ℚ) : ℚ := r * 256 + g + b / 256 - 32768

/-! ### Nearest-neighbour resampling (route lines 33–37 and 140–153) -/

/-- The flat index `iy * srcW + ix` computed by `nearestSample` after
rounding and clamping both coordinates. -/
def nearestSampleIndex (srcW srcH : ℕ) (x y : ℚ) : ℤ :=
  clamp (jsRound y) 0 ((srcH : ℤ) - 1) * srcW + clamp (jsRound x) 0 ((srcW : ℤ) - 1)

/-- Function `nearestSample` itself: read the stitched raster at the clamped
index.  An out-of-range read would be JavaScript `undefined`, which
behaves like `NaN` in the subsequent numeric comparisons, hence the
`.nan` default; the in-bounds theorem shows the default is never used
when the raster is non-degenerate. -/
def nearestSample (src : List JSNum) (srcW srcH : ℕ) (x y : ℚ) : JSNum :=
  src.getD (nearestSampleIndex srcW srcH x y).toNat .nan

/-- Route line 146: `sx = pxWest + (pxEast - pxWest) * (i / (grid - 1))`. -/
def resampleCoordX (pxWest pxEast : ℚ) (grid i : ℕ) : ℚ :=
  pxWest + (pxEast - pxWest) * ((i : ℚ) / ((grid : ℚ) - 1))

/-- Route line 142: `sy = pxNorth + (pxSouth - pxNorth) * (j / (grid - 1))`. -/
def resampleCoordY (pxNorth pxSouth : ℚ) (grid j : ℕ) : ℚ :=
  pxNorth + (pxSouth - pxNorth) * ((j : ℚ) / ((grid : ℚ) - 1))

/-- The `grid × grid` list of samples produced by the resampling loop
(route lines 140–153), row by row. -/
def resampleValues (src : List JSNum) (srcW srcH : ℕ)
    (pxW pxE pxN pxS : ℚ) (grid : ℕ) : List JSNum :=
  ((List.range grid).map (fun j =>
    (List.range grid).map (fun i =>
      nearestSample src srcW srcH
        (resampleCoordX pxW pxE grid i) (resampleCoordY pxN pxS grid j)))).flatten

/-- One step of the running min/max tracking inside the resampling
loop: `if (v < minE) minE = v; if (v > maxE) maxE = v;` with JavaScript
comparisons (so `NaN` samples update neither bound). -/
def minMaxStep (p : JSNum × JSNum) (v : JSNum) : JSNum × JSNum :=
  ((if jsLt v p.1 then v else p.1), (if jsLt p.2 v then v else p.2))

/-- The whole scan, started from `minE = Infinity`, `maxE = -Infinity`
(route lines 137–151). -/
def scanMinMax (vs : List JSNum) : JSNum × JSNum :=
  vs.foldl minMaxStep (.inf, .ninf)

/-- Route line 155: `!isFinite(minE) || !isFinite(maxE) || maxE <= minE`. -/
def degenerate (minE maxE : JSNum) : Bool :=
  !isFinite minE || !isFinite maxE || jsLe maxE minE

/-- The degenerate-elevation guard (route lines 155–157): fail with the
502 response, otherwise hand the extremes on to threshold planning. -/
def degenerateStep (minE maxE : JSNum) : Except ExportError (JSNum × JSNum) :=
  if degenerate minE maxE then .error .degenerateElevation else .ok (minE, maxE)

/-! ### Threshold planning (route lines 160–168) -/

/-- The loop `for (let t = start + intervalM; t <= end; t += intervalM)
thresholds.push(t)`, with fuel making the recursion structural.  The
caller supplies fuel exact for `0 < i`. -/
def thresholdLoop (endV i : ℚ) : ℚ → ℕ → List ℚ
  | _, 0 => []
  | t, fuel + 1 => if t ≤ endV then t :: thresholdLoop endV i (t + i) fuel else []

/-- Route lines 160–164: `start = floor(minE / intervalM) * intervalM`,
`end = ceil(maxE / intervalM) * intervalM`, then collect
`start + intervalM, start + 2·intervalM, …` while `≤ end`.  For
`0 < i` the loop runs exactly `(⌈maxE/i⌉ - ⌊minE/i⌋).toNat` times, so
that fuel reproduces the JavaScript loop exactly. -/
def thresholds (minE maxE i : ℚ) : List ℚ :=
  thresholdLoop (⌈maxE / i⌉ * i) i (⌊minE / i⌋ * i + i) (⌈maxE / i⌉ - ⌊minE / i⌋).toNat

/-- Route lines 163–168: compute the thresholds and fail with the
"No layers produced" 400 response when the list is empty. -/
def planThresholds (minE maxE i : ℚ) : Except ExportError (List ℚ) :=
  let ts := thresholds minE maxE i
  if ts = [] then .error .noLayers else .ok ts

/-! ### Physical scaling and stroke compensation (route lines 177–195) -/

/-- Route line 177: `scaleX = widthIn / (grid - 1)`. -/
def scaleX (widthIn : ℚ) (grid : ℕ) : ℚ := widthIn / ((grid : ℚ) - 1)

/-- Route line 178: `scaleY = heightIn / (grid - 1)`. -/
def scaleY (heightIn : ℚ) (grid : ℕ) : ℚ := heightIn / ((grid : ℚ) - 1)

/-- Route line 195: `stroke = 0.001 / Math.max(scaleX, scaleY)`. -/
def strokeWidth (widthIn heightIn : ℚ) (grid : ℕ) : ℚ :=
  0.001 / max (scaleX widthIn grid) (scaleY heightIn grid)

/-! ### Layer emission and naming (route lines 183–222) -/

/-- What the emission loop sees of one d3-contour feature: its
threshold `value` and the result of `pathGen(f)` (`none` models `null`;
the empty string, like `null`, is falsy and is skipped by
`if (!d) continue`). -/
structure ContourFeature where
  value : ℚ
  pathD : Option String
deriving DecidableEq

/-- JavaScript truthiness of `pathGen`'s result. -/
def truthy (d : Option String) : Bool :=
  match d with
  | none => false
  | some s => !(s == "")

/-- Zero padding `String(n).padStart(3, "0")`. -/
def pad3 (n : ℕ) : String :=
  let s := toString n
  String.mk (List.replicate (3 - s.length) '0') ++ s

/-- Route lines 191–192: the artifact name
`layer_${String(idx + 1).padStart(3, "0")}_${Math.round(level)}m.svg`. -/
def layerName (idx : ℕ) (level : ℚ) : String :=
  "layer_" ++ pad3 (idx + 1) ++ "_" ++ toString (jsRound level) ++ "m.svg"

/-- One emitted zip entry, abstracted to the parts the naming contract
speaks about: the assigned number (`idx + 1`), the threshold, and the
file name. -/
structure LayerFile where
  number : ℕ
  level : ℚ
  name : String
deriving DecidableEq

/-- The emission loop (route lines 183–207): walk the features with
their index, skip falsy paths, write a file named from the feature
index, and count written files in the second component (`written`). -/
def emitFrom : ℕ → List ContourFeature → List LayerFile × ℕ
  | _, [] => ([], 0)
  | idx, f :: rest =>
    let out := emitFrom (idx + 1) rest
    if truthy f.pathD then
      (⟨idx + 1, f.value, layerName idx f.value⟩ :: out.1, out.2 + 1)
    else out

/-- The loop started at index 0. -/
def emitLayers (fs : List ContourFeature) : List LayerFile × ℕ := emitFrom 0 fs

/-- The `Layers written:` figure in `README.txt` (route line 217). -/
def manifestLayerCount (fs : List ContourFeature) : ℕ := (emitLayers fs).2

end Tapomap

namespace Tapomap

/-! ## Helper lemmas -/

lemma clamp_bounds (n a b : ℤ) (hab : a ≤ b) : a ≤ clamp n a b ∧ clamp n a b ≤ b :=
  ⟨le_max_left a (min b n), max_le hab (min_le_left b n)⟩

lemma nearestSampleIndex_bounds (srcW srcH : ℕ) (x y : ℚ)
    (hw : 1 ≤ srcW) (hh : 1 ≤ srcH) :
    0 ≤ nearestSampleIndex srcW srcH x y ∧
      nearestSampleIndex srcW srcH x y < (srcW : ℤ) * srcH := by
  have hwz : (1 : ℤ) ≤ (srcW : ℤ) := by exact_mod_cast hw
  have hhz : (1 : ℤ) ≤ (srcH : ℤ) := by exact_mod_cast hh
  obtain ⟨hx0, hx1⟩ := clamp_bounds (jsRound x) 0 ((srcW : ℤ) - 1) (by omega)
  obtain ⟨hy0, hy1⟩ := clamp_bounds (jsRound y) 0 ((srcH : ℤ) - 1) (by omega)
  unfold nearestSampleIndex
  refine ⟨?_, ?_⟩
  · have h0 : 0 ≤ clamp (jsRound y) 0 ((srcH : ℤ) - 1) * (srcW : ℤ) :=
      mul_nonneg hy0 (by omega)
    omega
  · have h1 : clamp (jsRound y) 0 ((srcH : ℤ) - 1) * (srcW : ℤ) ≤
        ((srcH : ℤ) - 1) * (srcW : ℤ) :=
      mul_le_mul_of_nonneg_right hy1 (by omega)
    calc clamp (jsRound y) 0 ((srcH : ℤ) - 1) * (srcW : ℤ) +
          clamp (jsRound x) 0 ((srcW : ℤ) - 1)
        ≤ ((srcH : ℤ) - 1) * (srcW : ℤ) + ((srcW : ℤ) - 1) := add_le_add h1 hx1
      _ = (srcW : ℤ) * (srcH : ℤ) - 1 := by ring
      _ < (srcW : ℤ) * (srcH : ℤ) := by omega

/-- Exact unrolling of the threshold loop: starting one interval past
`(e - m)·i` with fuel `m`, the loop emits exactly `m` values spaced by
`i`. -/
lemma thresholdLoop_closed (i : ℚ) (hi : 0 < i) (e : ℤ) :
    ∀ (m : ℕ) (t : ℚ), t = ((e : ℚ) - m) * i + i →
      thresholdLoop ((e : ℚ) * i) i t m =
        (List.range m).map (fun k : ℕ => t + (k : ℚ) * i) := by
  intro m
  induction m with
  | zero => intro t _; simp [thresholdLoop]
  | succ m ih =>
    intro t ht
    have hm1 : ((m + 1 : ℕ) : ℚ) = (m : ℚ) + 1 := by push_cast; ring
    rw [hm1] at ht
    have ht2 : t = ((e : ℚ) - m) * i := by linear_combination ht
    have hcond : t ≤ (e : ℚ) * i := by
      rw [ht2]
      have hm : ((e : ℚ) - m) ≤ (e : ℚ) := by
        have h0 : (0 : ℚ) ≤ (m : ℚ) := by positivity
        linarith
      exact mul_le_mul_of_nonneg_right hm hi.le
    have hnext : t + i = ((e : ℚ) - m) * i + i := by rw [ht2]
    rw [thresholdLoop, if_pos hcond, ih (t + i) hnext]
    rw [List.range_succ_eq_map, List.map_cons, List.map_map]
    refine congrArg₂ List.cons (by norm_num) ?_
    apply List.map_congr_left
    intro k _
    simp only [Function.comp_apply]
    push_cast
    ring

/-- Closed form of `thresholds` for a positive interval: one value per
integer step from `⌊minE/i⌋ + 1` up to `⌈maxE/i⌉`. -/
lemma thresholds_closed (minE maxE i : ℚ) (hi : 0 < i) :
    thresholds minE maxE i =
      (List.range (⌈maxE / i⌉ - ⌊minE / i⌋).toNat).map
        (fun k : ℕ => ⌊minE / i⌋ * i + ((k : ℚ) + 1) * i) := by
  rcases le_or_lt (⌈maxE / i⌉ - ⌊minE / i⌋) 0 with hle | hlt
  · rw [thresholds, Int.toNat_of_nonpos hle]
    simp [thresholdLoop]
  · have hm : (((⌈maxE / i⌉ - ⌊minE / i⌋).toNat : ℕ) : ℚ) =
        (⌈maxE / i⌉ : ℚ) - (⌊minE / i⌋ : ℚ) := by
      have h1 : (((⌈maxE / i⌉ - ⌊minE / i⌋).toNat : ℕ) : ℤ) =
          ⌈maxE / i⌉ - ⌊minE / i⌋ := Int.toNat_of_nonneg hlt.le
      exact_mod_cast congrArg (fun z : ℤ => (z : ℚ)) h1
    rw [thresholds, thresholdLoop_closed i hi ⌈maxE / i⌉ _ _ (by rw [hm]; ring)]
    apply List.map_congr_left
    intro k _
    ring

/-- Concrete threshold evaluation for the spec's first example. -/
lemma thresholds_105_242_30 :
    thresholds 105 242 30 = [120, 150, 180, 210, 240, 270] := by
  have hf : ⌊(105 : ℚ) / 30⌋ = 3 := by norm_num
  have hc : ⌈(242 : ℚ) / 30⌉ = 9 := by rw [Int.ceil_eq_iff] <;> norm_num
  rw [thresholds, hf, hc]
  norm_num [thresholdLoop]

/-- Concrete threshold evaluation for the spec's second example. -/
lemma thresholds_100_110_50 : thresholds 100 110 50 = [150] := by
  have hf : ⌊(100 : ℚ) / 50⌋ = 2 := by norm_num
  have hc : ⌈(110 : ℚ) / 50⌉ = 3 := by rw [Int.ceil_eq_iff] <;> norm_num
  rw [thresholds, hf, hc]
  norm_num [thresholdLoop]

lemma getD_replicate (a d : JSNum) : ∀ (n k : ℕ), k < n →
    (List.replicate n a).getD k d = a := by
  intro n
  induction n with
  | zero => intro k hk; exact absurd hk (Nat.not_lt_zero k)
  | succ n ih =>
    intro k hk
    cases k with
    | zero => simp [List.replicate_succ]
    | succ k =>
      rw [List.replicate_succ, List.getD_cons_succ]
      exact ih k (Nat.lt_of_succ_lt_succ hk)

lemma minMaxStep_const (c : ℚ) :
    minMaxStep (.fin c, .fin c) (.fin c) = (.fin c, .fin c) := by
  simp [minMaxStep, jsLt]

lemma foldl_minMax_const (c : ℚ) : ∀ l : List JSNum, (∀ v ∈ l, v = .fin c) →
    l.foldl minMaxStep (.fin c, .fin c) = (.fin c, .fin c) := by
  intro l
  induction l with
  | nil => intro _; rfl
  | cons v rest ih =>
    intro h
    have hv : v = .fin c := h v (by simp)
    rw [List.foldl_cons, hv, minMaxStep_const]
    exact ih (fun w hw => h w (by simp [hw]))

/-- A non-empty list of constant finite samples scans to that constant
as both extremes. -/
lemma scanMinMax_const (c : ℚ) (l : List JSNum) (hne : l ≠ [])
    (h : ∀ v ∈ l, v = .fin c) : scanMinMax l = (.fin c, .fin c) := by
  cases l with
  | nil => exact absurd rfl hne
  | cons v rest =>
    have hv : v = .fin c := h v (by simp)
    have hstep : minMaxStep (.inf, .ninf) (.fin c) = (.fin c, .fin c) := by
      simp [minMaxStep, jsLt]
    rw [scanMinMax, List.foldl_cons, hv, hstep]
    exact foldl_minMax_const c rest (fun w hw => h w (by simp [hw]))

/-- All-`NaN` input leaves the scan at its initial
`(Infinity, -Infinity)` state, because `NaN` comparisons are false. -/
lemma scanMinMax_nan (n : ℕ) :
    scanMinMax (List.replicate n .nan) = (.inf, .ninf) := by
  rw [scanMinMax]
  induction n with
  | zero => rfl
  | succ n ih =>
    rw [List.replicate_succ, List.foldl_cons]
    have hstep : minMaxStep (.inf, .ninf) .nan = (.inf, .ninf) := rfl
    rw [hstep]
    exact ih

/-- Every sample drawn from a constant stitched raster is that
constant: the clamped index is in bounds, so the read hits a raster
cell. -/
lemma resampleValues_mem_const (c : ℚ) (srcW srcH : ℕ)
    (pxW pxE pxN pxS : ℚ) (grid : ℕ) (hw : 1 ≤ srcW) (hh : 1 ≤ srcH) :
    ∀ v ∈ resampleValues (List.replicate (srcW * srcH) (.fin c))
      srcW srcH pxW pxE pxN pxS grid, v = .fin c := by
  intro v hv
  rw [resampleValues, List.mem_flatten] at hv
  obtain ⟨l, hl, hvl⟩ := hv
  rw [List.mem_map] at hl
  obtain ⟨j, _, rfl⟩ := hl
  rw [List.mem_map] at hvl
  obtain ⟨i, _, rfl⟩ := hvl
  rw [nearestSample]
  have hb := nearestSampleIndex_bounds srcW srcH
    (resampleCoordX pxW pxE grid i) (resampleCoordY pxN pxS grid j) hw hh
  have hcast : ((srcW * srcH : ℕ) : ℤ) = (srcW : ℤ) * srcH := by push_cast; ring
  have h1 := hb.1
  have h2 := hb.2
  rw [← hcast] at h2
  exact getD_replicate _ _ _ _ (by omega)

/-- For `grid ≥ 1` the resampling loop produces at least one sample. -/
lemma resampleValues_ne_nil (src : List JSNum) (srcW srcH : ℕ)
    (pxW pxE pxN pxS : ℚ) (grid : ℕ) (hg : 1 ≤ grid) :
    resampleValues src srcW srcH pxW pxE pxN pxS grid ≠ [] := by
  apply List.ne_nil_of_mem
    (a := nearestSample src srcW srcH
      (resampleCoordX pxW pxE grid 0) (resampleCoordY pxN pxS grid 0))
  rw [resampleValues, List.mem_flatten]
  refine ⟨(List.range grid).map (fun i => nearestSample src srcW srcH
    (resampleCoordX pxW pxE grid i) (resampleCoordY pxN pxS grid 0)), ?_, ?_⟩
  · exact List.mem_map.mpr ⟨0, List.mem_range.mpr (by omega), rfl⟩
  · exact List.mem_map.mpr ⟨0, List.mem_range.mpr (by omega), rfl⟩

/-- Once the remaining features all have falsy paths, the loop writes
nothing more. -/
lemma emitFrom_all_falsy (l : List ContourFeature)
    (h : ∀ f ∈ l, truthy f.pathD = false) :
    ∀ idx, emitFrom idx l = ([], 0) := by
  induction l with
  | nil => intro idx; rfl
  | cons f rest ih =>
    intro idx
    have hf : truthy f.pathD = false := h f (by simp)
    have ih2 := ih (fun w hw => h w (by simp [hw])) (idx + 1)
    simp only [emitFrom, hf, Bool.false_eq_true, if_false, ih2]

/-- Structure of the emission loop on a truthy prefix followed by a
falsy suffix: it emits exactly the prefix, numbering consecutively from
`idx + 1`, carrying each feature's value, and naming each file from its
own number and rounded level. -/
lemma emitFrom_prefix (u : List ContourFeature)
    (hu : ∀ f ∈ u, truthy f.pathD = false) :
    ∀ (t : List ContourFeature) (idx : ℕ),
      (∀ f ∈ t, truthy f.pathD = true) →
      (emitFrom idx (t ++ u)).2 = t.length ∧
      (emitFrom idx (t ++ u)).1.map LayerFile.number =
        (List.range t.length).map (fun j => idx + j + 1) ∧
      (emitFrom idx (t ++ u)).1.map LayerFile.level =
        t.map ContourFeature.value ∧
      ∀ lf ∈ (emitFrom idx (t ++ u)).1,
        lf.name = "layer_" ++ pad3 lf.number ++ "_" ++
          toString (jsRound lf.level) ++ "m.svg" := by
  intro t
  induction t with
  | nil =>
    intro idx _
    simp [emitFrom_all_falsy u hu idx]
  | cons f rest ih =>
    intro idx ht
    have hf : truthy f.pathD = true := ht f (by simp)
    have ihr := ih (idx + 1) (fun w hw => ht w (by simp [hw]))
    rw [List.cons_append]
    simp only [emitFrom, hf, if_true]
    refine ⟨?_, ?_, ?_, ?_⟩
    · simp [ihr.1]
    · simp only [List.map_cons, ihr.2.1]
      rw [List.length_cons, List.range_succ_eq_map]
      simp only [List.map_cons, List.map_map]
      refine congrArg₂ List.cons (by omega) ?_
      apply List.map_congr_left
      intro j _
      simp only [Function.comp_apply]
      omega
    · simp [ihr.2.2.1]
    · intro lf hlf
      rcases List.mem_cons.mp hlf with rfl | hlf2
      · rfl
      · exact ihr.2.2.2 lf hlf2

/-! ## Claim theorems -/

/-- C1 (amended): threshold planning follows
`start = ⌊min/interval⌋·interval`, `end = ⌈max/interval⌉·interval`,
thresholds `start + interval, start + 2·interval, …` while `≤ end`
(stated as the closed form of the loop plus the `≤ end` bound); for
`minElevation = 105`, `maxElevation = 242`, `interval = 30` the planner
returns the SIX thresholds `[120, 150, 180, 210, 240, 270]` — the end
value `⌈242/30⌉·30 = 270` satisfies `t ≤ end` and is included. -/
theorem threshold_plan_formula (minE maxE i : ℚ) (hi : 0 < i) :
    thresholds minE maxE i =
      (List.range (⌈maxE / i⌉ - ⌊minE / i⌋).toNat).map
        (fun k : ℕ => ⌊minE / i⌋ * i + ((k : ℚ) + 1) * i) ∧
    (∀ t ∈ thresholds minE maxE i, t ≤ ⌈maxE / i⌉ * i) ∧
    thresholds 105 242 30 = [120, 150, 180, 210, 240, 270] := by
  refine ⟨thresholds_closed minE maxE i hi, ?_, thresholds_105_242_30⟩
  intro t ht
  rw [thresholds_closed minE maxE i hi] at ht
  obtain ⟨k, hk, rfl⟩ := List.mem_map.mp ht
  have hklt : (k : ℤ) < ⌈maxE / i⌉ - ⌊minE / i⌋ :=
    Int.lt_toNat.mp (List.mem_range.mp hk)
  have hkq : (k : ℚ) + 1 ≤ (⌈maxE / i⌉ : ℚ) - (⌊minE / i⌋ : ℚ) := by
    have h1 : (k : ℤ) + 1 ≤ ⌈maxE / i⌉ - ⌊minE / i⌋ := hklt
    exact_mod_cast h1
  have h2 : ((k : ℚ) + 1) * i ≤ ((⌈maxE / i⌉ : ℚ) - (⌊minE / i⌋ : ℚ)) * i :=
    mul_le_mul_of_nonneg_right hkq hi.le
  linarith [h2]

/-- C1 witness: the formula instantiated at the spec's example input. -/
theorem threshold_plan_formula_witness :
    thresholds 105 242 30 =
      (List.range (⌈(242 : ℚ) / 30⌉ - ⌊(105 : ℚ) / 30⌋).toNat).map
        (fun k : ℕ => ⌊(105 : ℚ) / 30⌋ * 30 + ((k : ℚ) + 1) * 30) ∧
    (∀ t ∈ thresholds 105 242 30, t ≤ ⌈(242 : ℚ) / 30⌉ * 30) ∧
    thresholds 105 242 30 = [120, 150, 180, 210, 240, 270] :=
  threshold_plan_formula 105 242 30 (by norm_num)

/-- C1 counterexample: on `min = 105, max = 242, interval = 30` the
planner returns six thresholds, not the five the claim states —
`end = ⌈242/30⌉·30 = 270` is itself a planned threshold. -/
theorem threshold_plan_not_five_bands :
    thresholds 105 242 30 = [120, 150, 180, 210, 240, 270] ∧
    thresholds 105 242 30 ≠ [120, 150, 180, 210, 240] := by
  refine ⟨thresholds_105_242_30, ?_⟩
  rw [thresholds_105_242_30]
  intro hco
  have hlen := congrArg List.length hco
  simp at hlen

/-- C2 (amended): when the planned threshold set is empty the export
fails with the `NoLayersError` response; however for
`min = 100, max = 110, interval = 50` the planned set is `[150]` (the
first candidate `start + interval = 150` equals `end = ⌈110/50⌉·50` and
is kept), so planning succeeds there; moreover for finite (rational)
extremes with `max > min` and a finite interval `> 0`, the planned set
is never empty.  (This says nothing about non-finite intervals, which
pass validation — see the C6 correction — and can reach the empty-set
branch through `NaN` arithmetic; the formula here is the finite-value
one of the claim.) -/
theorem no_layers_guard (minE maxE i : ℚ) (hi : 0 < i) (hlt : minE < maxE) :
    (∀ a b c : ℚ, thresholds a b c = [] →
      planThresholds a b c = .error .noLayers) ∧
    thresholds minE maxE i ≠ [] ∧
    planThresholds minE maxE i = .ok (thresholds minE maxE i) ∧
    planThresholds 100 110 50 = .ok [150] := by
  have hne : thresholds minE maxE i ≠ [] := by
    rw [thresholds_closed minE maxE i hi]
    have hfc : ⌊minE / i⌋ < ⌈maxE / i⌉ := by
      have h1 : (⌊minE / i⌋ : ℚ) ≤ minE / i := Int.floor_le _
      have h2 : maxE / i ≤ (⌈maxE / i⌉ : ℚ) := Int.le_ceil _
      have h3 : minE / i < maxE / i := by
        apply div_lt_div_of_pos_right hlt hi
      have h4 : (⌊minE / i⌋ : ℚ) < (⌈maxE / i⌉ : ℚ) := by linarith
      exact_mod_cast h4
    intro hempty
    rw [List.map_eq_nil_iff, List.range_eq_nil] at hempty
    have h5 := Int.toNat_eq_zero.mp hempty
    omega
  refine ⟨?_, hne, ?_, ?_⟩
  · intro a b c h
    simp [planThresholds, h]
  · simp [planThresholds, hne]
  · simp [planThresholds, thresholds_100_110_50]

/-- C2 witness: the amended statement at `min = 100, max = 110,
interval = 50`. -/
theorem no_layers_guard_witness :
    (∀ a b c : ℚ, thresholds a b c = [] →
      planThresholds a b c = .error .noLayers) ∧
    thresholds 100 110 50 ≠ [] ∧
    planThresholds 100 110 50 = .ok (thresholds 100 110 50) ∧
    planThresholds 100 110 50 = .ok [150] :=
  no_layers_guard 100 110 50 (by norm_num) (by norm_num)

/-- C2 counterexample: on `min = 100, max = 110, interval = 50` the
planned set is the non-empty `[150]`, so planning succeeds rather than
failing with `NoLayersError` as the claim states. -/
theorem no_layers_example_nonempty :
    thresholds 100 110 50 = [150] ∧
    planThresholds 100 110 50 = .ok [150] ∧
    planThresholds 100 110 50 ≠ .error .noLayers := by
  refine ⟨thresholds_100_110_50, ?_, ?_⟩ <;>
    simp [planThresholds, thresholds_100_110_50]

/-- C3: with a valid request, the pre-stitch stage proceeds (returns
the tile range stitching consumes) whenever the computed tile count is
at most 64, and fails with the area-too-large response — carrying the
actual computed tile count — whenever it exceeds 64, before any
stitching happens. -/
theorem tile_ceiling_guard (c : RequestConfig) (tlx tly brx bry : ℚ)
    (hv : validationFails c = false) :
    (tileCount (addressRange tlx tly brx bry) ≤ 64 →
      exportPrelude c tlx tly brx bry = .ok (addressRange tlx tly brx bry)) ∧
    (64 < tileCount (addressRange tlx tly brx bry) →
      exportPrelude c tlx tly brx bry =
        .error (.areaTooLarge (tileCount (addressRange tlx tly brx bry)))) := by
  constructor
  · intro h
    simp [exportPrelude, hv, not_lt.mpr h]
  · intro h
    simp [exportPrelude, hv, h]

/-- C3 witness: with the default request, corners spanning 8×8 = 64
tiles proceed, and corners spanning 13×5 = 65 tiles fail reporting 65. -/
theorem tile_ceiling_guard_witness :
    validationFails ⟨true, .fin 20, .fin 12, .fin 30, .fin 256⟩ = false ∧
    tileCount (addressRange 0 0 (15/2) (15/2)) = 64 ∧
    exportPrelude ⟨true, .fin 20, .fin 12, .fin 30, .fin 256⟩ 0 0 (15/2) (15/2) =
      .ok (addressRange 0 0 (15/2) (15/2)) ∧
    tileCount (addressRange 0 0 (25/2) (9/2)) = 65 ∧
    exportPrelude ⟨true, .fin 20, .fin 12, .fin 30, .fin 256⟩ 0 0 (25/2) (9/2) =
      .error (.areaTooLarge (tileCount (addressRange 0 0 (25/2) (9/2)))) := by
  have hv : validationFails ⟨true, .fin 20, .fin 12, .fin 30, .fin 256⟩ = false := by
    norm_num [validationFails, jsLe, jsLt]
  have hr64 : addressRange 0 0 (15/2) (15/2) = ⟨0, 7, 0, 7⟩ := by
    have hx : max (0 : ℚ) (15/2) = 15/2 := max_eq_right (by norm_num)
    have hn : min (0 : ℚ) (15/2) = 0 := min_eq_left (by norm_num)
    have hf : ⌊(15/2 : ℚ)⌋ = 7 := by norm_num
    rw [addressRange, hx, hn, hf]
    norm_num
  have hr65 : addressRange 0 0 (25/2) (9/2) = ⟨0, 12, 0, 4⟩ := by
    have hx : max (0 : ℚ) (25/2) = 25/2 := max_eq_right (by norm_num)
    have hn : min (0 : ℚ) (25/2) = 0 := min_eq_left (by norm_num)
    have hy : max (0 : ℚ) (9/2) = 9/2 := max_eq_right (by norm_num)
    have hm : min (0 : ℚ) (9/2) = 0 := min_eq_left (by norm_num)
    have hf : ⌊(25/2 : ℚ)⌋ = 12 := by norm_num
    have hg : ⌊(9/2 : ℚ)⌋ = 4 := by norm_num
    rw [addressRange, hx, hn, hy, hm, hf, hg]
    norm_num
  have hc64 : tileCount (addressRange 0 0 (15/2) (15/2)) = 64 := by
    rw [hr64]; rfl
  have hc65 : tileCount (addressRange 0 0 (25/2) (9/2)) = 65 := by
    rw [hr65]; rfl
  exact ⟨hv, hc64,
    (tile_ceiling_guard _ 0 0 (15/2) (15/2) hv).1 (by rw [hc64]),
    hc65,
    (tile_ceiling_guard _ 0 0 (25/2) (9/2) hv).2 (by rw [hc65]; norm_num)⟩

/-- C4 (amended): the tile address range is obtained by projecting the
two corner points and flooring BOTH the minimum and the maximum of each
axis (not floor/ceil); the result is an inclusive range covering the
bounds (the tile index of any coordinate between the corners lies in
the range), always satisfies `xMin ≤ xMax` and `yMin ≤ yMax`, and the
tile count used by the ceiling check equals
`(xMax - xMin + 1) * (yMax - yMin + 1)`. -/
theorem address_range_bounds (tlx tly brx bry qx qy : ℚ)
    (hx1 : min tlx brx ≤ qx) (hx2 : qx ≤ max tlx brx)
    (hy1 : min tly bry ≤ qy) (hy2 : qy ≤ max tly bry) :
    (addressRange tlx tly brx bry).xMin ≤ (addressRange tlx tly brx bry).xMax ∧
    (addressRange tlx tly brx bry).yMin ≤ (addressRange tlx tly brx bry).yMax ∧
    tileCount (addressRange tlx tly brx bry) =
      ((addressRange tlx tly brx bry).xMax - (addressRange tlx tly brx bry).xMin + 1) *
        ((addressRange tlx tly brx bry).yMax - (addressRange tlx tly brx bry).yMin + 1) ∧
    ((addressRange tlx tly brx bry).xMin ≤ ⌊qx⌋ ∧
      ⌊qx⌋ ≤ (addressRange tlx tly brx bry).xMax) ∧
    ((addressRange tlx tly brx bry).yMin ≤ ⌊qy⌋ ∧
      ⌊qy⌋ ≤ (addressRange tlx tly brx bry).yMax) :=
  ⟨Int.floor_le_floor (min_le_max),
   Int.floor_le_floor (min_le_max),
   rfl,
   ⟨Int.floor_le_floor hx1, Int.floor_le_floor hx2⟩,
   ⟨Int.floor_le_floor hy1, Int.floor_le_floor hy2⟩⟩

/-- C4 witness: the amended statement at corners `(1/5, 1/5)` and
`(53/10, 53/10)` with interior point `(3, 3)`. -/
theorem address_range_bounds_witness :
    (addressRange (1/5) (1/5) (53/10) (53/10)).xMin ≤
      (addressRange (1/5) (1/5) (53/10) (53/10)).xMax ∧
    (addressRange (1/5) (1/5) (53/10) (53/10)).yMin ≤
      (addressRange (1/5) (1/5) (53/10) (53/10)).yMax ∧
    tileCount (addressRange (1/5) (1/5) (53/10) (53/10)) =
      ((addressRange (1/5) (1/5) (53/10) (53/10)).xMax -
          (addressRange (1/5) (1/5) (53/10) (53/10)).xMin + 1) *
        ((addressRange (1/5) (1/5) (53/10) (53/10)).yMax -
          (addressRange (1/5) (1/5) (53/10) (53/10)).yMin + 1) ∧
    ((addressRange (1/5) (1/5) (53/10) (53/10)).xMin ≤ ⌊(3 : ℚ)⌋ ∧
      ⌊(3 : ℚ)⌋ ≤ (addressRange (1/5) (1/5) (53/10) (53/10)).xMax) ∧
    ((addressRange (1/5) (1/5) (53/10) (53/10)).yMin ≤ ⌊(3 : ℚ)⌋ ∧
      ⌊(3 : ℚ)⌋ ≤ (addressRange (1/5) (1/5) (53/10) (53/10)).yMax) :=
  address_range_bounds (1/5) (1/5) (53/10) (53/10) 3 3
    (le_trans (min_le_left _ _) (by norm_num))
    (le_trans (by norm_num) (le_max_right _ _))
    (le_trans (min_le_left _ _) (by norm_num))
    (le_trans (by norm_num) (le_max_right _ _))

/-- C4 counterexample: the code floors BOTH corner projections; reading
"floor/ceil" as floor-of-min / ceiling-of-max gives a different range
(`xMax = 6` instead of `5`) at corners projecting to `0.2` and `5.3`. -/
theorem address_range_floor_not_ceil :
    addressRange (1/5) (1/5) (53/10) (53/10) = ⟨0, 5, 0, 5⟩ ∧
    addressRangeFloorCeil (1/5) (1/5) (53/10) (53/10) = ⟨0, 6, 0, 6⟩ ∧
    addressRange (1/5) (1/5) (53/10) (53/10) ≠
      addressRangeFloorCeil (1/5) (1/5) (53/10) (53/10) := by
  have hn : min (1/5 : ℚ) (53/10) = 1/5 := min_eq_left (by norm_num)
  have hx : max (1/5 : ℚ) (53/10) = 53/10 := max_eq_right (by norm_num)
  have h1 : ⌊(1/5 : ℚ)⌋ = 0 := by norm_num
  have h2 : ⌊(53/10 : ℚ)⌋ = 5 := by norm_num
  have h3 : ⌈(53/10 : ℚ)⌉ = 6 := by rw [Int.ceil_eq_iff] <;> norm_num
  have ha : addressRange (1/5) (1/5) (53/10) (53/10) = ⟨0, 5, 0, 5⟩ := by
    rw [addressRange, hn, hx, h1, h2]
  have hb : addressRangeFloorCeil (1/5) (1/5) (53/10) (53/10) = ⟨0, 6, 0, 6⟩ := by
    rw [addressRangeFloorCeil, hn, hx, h1, h3]
  refine ⟨ha, hb, ?_⟩
  rw [ha, hb]
  intro h
  have h56 := congrArg TileRange.xMax h
  simp at h56

/-- C6 (amended): a request whose contour interval compares `≤ 0` under
JavaScript semantics — every finite non-positive value and `-Infinity`,
but NOT `NaN` or `+Infinity`, whose comparisons are all false — fails
with the client-error validation response before any tile work begins
(the validation guard precedes tile addressing and the tile-count
guard). -/
theorem interval_validation_rejects (c : RequestConfig) (tlx tly brx bry : ℚ)
    (hi : jsLe c.intervalM (.fin 0) = true) :
    exportPrelude c tlx tly brx bry = .error .invalidConfig ∧
    (∀ q : ℚ, q ≤ 0 → jsLe (JSNum.fin q) (.fin 0) = true) ∧
    jsLe .ninf (.fin 0) = true ∧
    jsLe .nan (.fin 0) = false ∧
    jsLe .inf (.fin 0) = false := by
  have hv : validationFails c = true := by
    simp [validationFails, hi]
  refine ⟨by simp [exportPrelude, hv], ?_, rfl, rfl, rfl⟩
  intro q hq
  simp [jsLe, hq]

/-- C6 witness: a request with interval `-3` is rejected as invalid
regardless of the selected corners. -/
theorem interval_validation_rejects_witness :
    exportPrelude ⟨true, .fin 20, .fin 12, .fin (-3), .fin 256⟩ 0 0 (25/2) (9/2) =
      .error .invalidConfig ∧
    (∀ q : ℚ, q ≤ 0 → jsLe (JSNum.fin q) (.fin 0) = true) ∧
    jsLe .ninf (.fin 0) = true ∧
    jsLe .nan (.fin 0) = false ∧
    jsLe .inf (.fin 0) = false :=
  interval_validation_rejects ⟨true, .fin 20, .fin 12, .fin (-3), .fin 256⟩
    0 0 (25/2) (9/2) (by norm_num [jsLe])

/-- C6 counterexample: a request whose interval is `NaN` (non-finite)
passes validation — `NaN <= 0` is false in JavaScript — and the export
proceeds into tile work instead of failing with the validation error;
likewise for `+Infinity`. -/
theorem interval_validation_nan_passes :
    isFinite JSNum.nan = false ∧
    isFinite JSNum.inf = false ∧
    validationFails ⟨true, .fin 20, .fin 12, .nan, .fin 256⟩ = false ∧
    validationFails ⟨true, .fin 20, .fin 12, .inf, .fin 256⟩ = false ∧
    exportPrelude ⟨true, .fin 20, .fin 12, .nan, .fin 256⟩ 0 0 (1/2) (1/2) =
      .ok (addressRange 0 0 (1/2) (1/2)) := by
  have hv : validationFails ⟨true, .fin 20, .fin 12, .nan, .fin 256⟩ = false := by
    norm_num [validationFails, jsLe, jsLt]
  have hv2 : validationFails ⟨true, .fin 20, .fin 12, .inf, .fin 256⟩ = false := by
    norm_num [validationFails, jsLe, jsLt]
  have hr : addressRange 0 0 (1/2) (1/2) = ⟨0, 0, 0, 0⟩ := by
    have hx : max (0 : ℚ) (1/2) = 1/2 := max_eq_right (by norm_num)
    have hn : min (0 : ℚ) (1/2) = 0 := min_eq_left (by norm_num)
    have hf : ⌊(1/2 : ℚ)⌋ = 0 := by norm_num
    rw [addressRange, hx, hn, hf]
    norm_num
  refine ⟨rfl, rfl, hv, hv2, ?_⟩
  have hcount : tileCount (addressRange 0 0 (1/2) (1/2)) = 1 := by
    rw [hr]; rfl
  simp only [exportPrelude, hv, Bool.false_eq_true, if_false, hcount]
  rw [if_neg (by norm_num)]

/-- C5: after resampling, the export fails with the
degenerate-elevation response exactly when `maxE ≤ minE` (under
JavaScript comparison) or either extreme is non-finite, and otherwise
continues with the extremes; a perfectly constant raster scans to equal
extremes and is rejected, and all-`NaN` input leaves the extremes at
`(Infinity, -Infinity)`, which is likewise rejected. -/
theorem degenerate_elevation_guard (mn mx : JSNum) (c : ℚ)
    (srcW srcH grid : ℕ) (pxW pxE pxN pxS : ℚ)
    (hw : 1 ≤ srcW) (hh : 1 ≤ srcH) (hg : 1 ≤ grid) :
    (degenerateStep mn mx = .error .degenerateElevation ↔
      isFinite mn = false ∨ isFinite mx = false ∨ jsLe mx mn = true) ∧
    (degenerateStep mn mx = .error .degenerateElevation ∨
      degenerateStep mn mx = .ok (mn, mx)) ∧
    scanMinMax (resampleValues (List.replicate (srcW * srcH) (.fin c))
      srcW srcH pxW pxE pxN pxS grid) = (.fin c, .fin c) ∧
    degenerateStep (.fin c) (.fin c) = .error .degenerateElevation ∧
    (∀ n : ℕ, scanMinMax (List.replicate n .nan) = (.inf, .ninf)) ∧
    degenerateStep .inf .ninf = .error .degenerateElevation := by
  have hiff : degenerate mn mx = true ↔
      (isFinite mn = false ∨ isFinite mx = false ∨ jsLe mx mn = true) := by
    simp [degenerate, or_assoc]
  refine ⟨?_, ?_, ?_, ?_, scanMinMax_nan, ?_⟩
  · rw [← hiff]
    unfold degenerateStep
    cases hb : degenerate mn mx with
    | false => simp
    | true => simp
  · unfold degenerateStep
    cases hb : degenerate mn mx with
    | false => right; simp
    | true => left; simp
  · exact scanMinMax_const c _
      (resampleValues_ne_nil _ srcW srcH pxW pxE pxN pxS grid hg)
      (resampleValues_mem_const c srcW srcH pxW pxE pxN pxS grid hw hh)
  · simp [degenerateStep, degenerate, isFinite, jsLe]
  · rfl

/-- C5 witness: instantiated at finite extremes `(3, 5)`, constant
elevation `7` on a 2×2-tile-sized raster with a 64-cell sample grid. -/
theorem degenerate_elevation_guard_witness :
    (degenerateStep (.fin 3) (.fin 5) = .error .degenerateElevation ↔
      isFinite (JSNum.fin 3) = false ∨ isFinite (JSNum.fin 5) = false ∨
        jsLe (.fin 5) (.fin 3) = true) ∧
    (degenerateStep (.fin 3) (.fin 5) = .error .degenerateElevation ∨
      degenerateStep (.fin 3) (.fin 5) = .ok (.fin 3, .fin 5)) ∧
    scanMinMax (resampleValues (List.replicate (512 * 512) (.fin 7))
      512 512 0 100 0 100 64) = (.fin 7, .fin 7) ∧
    degenerateStep (.fin 7) (.fin 7) = .error .degenerateElevation ∧
    (∀ n : ℕ, scanMinMax (List.replicate n .nan) = (.inf, .ninf)) ∧
    degenerateStep .inf .ninf = .error .degenerateElevation :=
  degenerate_elevation_guard (.fin 3) (.fin 5) 7 512 512 64 0 100 0 100
    (by norm_num) (by norm_num) (by norm_num)

/-- C7: for every triple of channel byte values, the tile decoder
returns `c0 * 256 + c1 + c2 / 256 - 32768` metres exactly; the second
conjunct is the equivalent integer-scaled form, showing the value is an
exact multiple of 1/256. -/
theorem decode_terrarium_law (c0 c1 c2 : ℕ) :
    decodeTerrarium c0 c1 c2 = c0 * 256 + c1 + (c2 : ℚ) / 256 - 32768 ∧
    256 * decodeTerrarium c0 c1 c2 = 65536 * c0 + 256 * c1 + c2 - 8388608 := by
  refine ⟨rfl, ?_⟩
  unfold decodeTerrarium
  ring

/-- C8: for every grid size `N ≥ 2` and positive output dimensions, the
emitted stroke width times `max(scaleX, scaleY)` is exactly the
uncompensated constant `0.001`. -/
theorem stroke_width_compensation (widthIn heightIn : ℚ) (grid : ℕ)
    (hg : 2 ≤ grid) (hw : 0 < widthIn) (hh : 0 < heightIn) :
    strokeWidth widthIn heightIn grid *
      max (scaleX widthIn grid) (scaleY heightIn grid) = 0.001 := by
  have hg1 : (0 : ℚ) < (grid : ℚ) - 1 := by
    have h2 : (2 : ℚ) ≤ (grid : ℚ) := by exact_mod_cast hg
    linarith
  have hsx : 0 < scaleX widthIn grid := div_pos hw hg1
  have hmax : 0 < max (scaleX widthIn grid) (scaleY heightIn grid) :=
    lt_of_lt_of_le hsx (le_max_left _ _)
  unfold strokeWidth
  exact div_mul_cancel₀ _ (ne_of_gt hmax)

/-- C8 witness: the compensation law at the default request
(`widthIn = 20`, `heightIn = 12`, `grid = 256`). -/
theorem stroke_width_compensation_witness :
    strokeWidth 20 12 256 * max (scaleX 20 256) (scaleY 12 256) = 0.001 :=
  stroke_width_compensation 20 12 256 (by norm_num) (by norm_num) (by norm_num)

/-- C9: the emission loop writes one artifact per truthy-path feature.
Under the contour extractor's contract — features ordered by strictly
ascending threshold, with the empty-geometry (falsy-path) features
forming a suffix, since the region at or above a threshold only
shrinks as the threshold grows — the emitted artifacts are numbered
`1..N` contiguously ascending by threshold, each named
`layer_<number zero-padded to 3>_<rounded elevation>m.svg`, and the
manifest's reported layer count equals `N`, the number of emitted
artifacts. -/
theorem layer_numbering_manifest (fs : List ContourFeature) (k : ℕ)
    (hsort : (fs.map ContourFeature.value).Sorted (· < ·))
    (ht : ∀ f ∈ fs.take k, truthy f.pathD = true)
    (hu : ∀ f ∈ fs.drop k, truthy f.pathD = false) :
    manifestLayerCount fs = (emitLayers fs).1.length ∧
    (emitLayers fs).1.map LayerFile.number =
      (List.range (emitLayers fs).1.length).map (fun j => j + 1) ∧
    ((emitLayers fs).1.map LayerFile.level).Sorted (· < ·) ∧
    ∀ lf ∈ (emitLayers fs).1,
      lf.name = "layer_" ++ pad3 lf.number ++ "_" ++
        toString (jsRound lf.level) ++ "m.svg" := by
  have hmain := emitFrom_prefix (fs.drop k) hu (fs.take k) 0 ht
  rw [List.take_append_drop] at hmain
  obtain ⟨h1, h2, h3, h4⟩ := hmain
  have hlen : (emitLayers fs).1.length = (fs.take k).length := by
    have hl := congrArg List.length h3
    rw [List.length_map, List.length_map] at hl
    exact hl
  simp only [manifestLayerCount, emitLayers] at hlen ⊢
  refine ⟨?_, ?_, ?_, h4⟩
  · rw [h1, hlen]
  · rw [hlen, h2]
    apply List.map_congr_left
    intro j _
    omega
  · rw [h3, List.map_take]
    exact List.Pairwise.sublist
      (List.take_sublist k (fs.map ContourFeature.value)) hsort

/-- C9 witness: three features ascending by threshold, the last with
empty geometry; the loop emits two artifacts `layer_001_120m.svg`,
`layer_002_150m.svg` and the manifest reports 2. -/
theorem layer_numbering_manifest_witness :
    manifestLayerCount
        [⟨120, some "M0 0 L1 1 Z"⟩, ⟨150, some "M2 2 L3 3 Z"⟩, ⟨270, none⟩] =
      (emitLayers
        [⟨120, some "M0 0 L1 1 Z"⟩, ⟨150, some "M2 2 L3 3 Z"⟩, ⟨270, none⟩]).1.length ∧
    (emitLayers
        [⟨120, some "M0 0 L1 1 Z"⟩, ⟨150, some "M2 2 L3 3 Z"⟩, ⟨270, none⟩]).1.map
        LayerFile.number =
      (List.range (emitLayers
        [⟨120, some "M0 0 L1 1 Z"⟩, ⟨150, some "M2 2 L3 3 Z"⟩, ⟨270, none⟩]).1.length).map
        (fun j => j + 1) ∧
    ((emitLayers
        [⟨120, some "M0 0 L1 1 Z"⟩, ⟨150, some "M2 2 L3 3 Z"⟩, ⟨270, none⟩]).1.map
        LayerFile.level).Sorted (· < ·) ∧
    ∀ lf ∈ (emitLayers
        [⟨120, some "M0 0 L1 1 Z"⟩, ⟨150, some "M2 2 L3 3 Z"⟩, ⟨270, none⟩]).1,
      lf.name = "layer_" ++ pad3 lf.number ++ "_" ++
        toString (jsRound lf.level) ++ "m.svg" :=
  layer_numbering_manifest
    [⟨120, some "M0 0 L1 1 Z"⟩, ⟨150, some "M2 2 L3 3 Z"⟩, ⟨270, none⟩] 2
    (by simp [List.sorted_cons]; norm_num)
    (by intro f hf; simp at hf; rcases hf with rfl | rfl <;> rfl)
    (by intro f hf; simp at hf; rw [hf]; rfl)

/-- C10: for every raster with `srcW ≥ 1`, `srcH ≥ 1` and every (finite)
sample coordinate, the rounded-and-clamped flat index of
`nearestSample` lies inside `[0, srcW * srcH)`; in particular this holds
for each of the coordinates generated by the resampling loop, so every
one of the `grid × grid` reads is in bounds. -/
theorem nearest_sample_in_bounds (srcW srcH grid i j : ℕ)
    (x y pxW pxE pxN pxS : ℚ) (hw : 1 ≤ srcW) (hh : 1 ≤ srcH) :
    (0 ≤ nearestSampleIndex srcW srcH x y ∧
      nearestSampleIndex srcW srcH x y < (srcW : ℤ) * srcH) ∧
    (0 ≤ nearestSampleIndex srcW srcH
        (resampleCoordX pxW pxE grid i) (resampleCoordY pxN pxS grid j) ∧
      nearestSampleIndex srcW srcH
        (resampleCoordX pxW pxE grid i) (resampleCoordY pxN pxS grid j) <
        (srcW : ℤ) * srcH) :=
  ⟨nearestSampleIndex_bounds srcW srcH x y hw hh,
   nearestSampleIndex_bounds srcW srcH _ _ hw hh⟩

/-- C10 witness: a 512×256 raster probed far outside its extent still
yields an in-bounds index. -/
theorem nearest_sample_in_bounds_witness :
    (0 ≤ nearestSampleIndex 512 256 (-99999) 123456 ∧
      nearestSampleIndex 512 256 (-99999) 123456 < (512 : ℤ) * 256) ∧
    (0 ≤ nearestSampleIndex 512 256
        (resampleCoordX 0 1280 64 7) (resampleCoordY 0 1024 64 3) ∧
      nearestSampleIndex 512 256
        (resampleCoordX 0 1280 64 7) (resampleCoordY 0 1024 64 3) <
        (512 : ℤ) * 256) :=
  nearest_sample_in_bounds 512 256 64 7 3 (-99999) 123456 0 1280 0 1024
    (by norm_num) (by norm_num)

end Tapomap
